import Mathlib

/-!
A shallow embedding of the alert detection-and-relay pipeline of the
LoRa-Communication-System repository (transmitter, intermediate relay node,
receiver), together with theorems settling the specification claims about it.

Strings on the wire are modelled as `List Char` (C strings without the
terminating NUL); `millis()` timestamps as `Nat`, with 32-bit unsigned
subtraction made explicit; IEEE floats as `ℚ` for the control-flow layers
(filters, thresholds, transport selection) and as `ℝ` for the trigonometric
haversine distance.  External effects (radio sends) are represented by the
ordered list of payloads handed to the transport.
-/

namespace LoRaSystem

/-- Unsigned 32-bit subtraction `a - b`, as computed on `unsigned long`
values by `now - timestamp` in the source (ESP8266/ESP32: 32-bit). -/
def usub32 (a b : Nat) : Nat :=
  (a + (2 ^ 32 - b % 2 ^ 32)) % 2 ^ 32

/-- CACHE_SIZE from Intermediate_Nod.ino line 29. -/
def CACHE_SIZE : Nat := 10

/-- DEDUPE_WINDOW (ms) from Intermediate_Nod.ino line 36. -/
def DEDUPE_WINDOW : Nat := 5000

/-- One slot of the relay deduplication cache: struct MessageCache
(Intermediate_Nod.ino lines 30–33), msg a C string of capacity 64 bytes. -/
structure MessageCacheEntry where
  msg : List Char
  timestamp : Nat
deriving DecidableEq

/-- The relay cache state: the fixed array `messageCache` plus `cacheIndex`
(Intermediate_Nod.ino lines 33–34). -/
structure CacheState where
  entries : List MessageCacheEntry
  cacheIndex : Nat
deriving DecidableEq

/-- isDuplicate (Intermediate_Nod.ino lines 141–154): scan every slot; a
slot whose string compares equal (`strcmp == 0`) and whose timestamp is
within DEDUPE_WINDOW of `now` makes the message a duplicate. -/
def isDuplicate (cache : CacheState) (msg : List Char) (now : Nat) : Bool :=
  cache.entries.any fun e => e.msg == msg && decide (usub32 now e.timestamp < DEDUPE_WINDOW)

/-- cacheMessage (Intermediate_Nod.ino lines 157–163): `strncpy` the message
into the current ring slot (capacity 64, so at most 63 characters are kept,
then the NUL), stamp it with `millis()`, and advance the ring index mod
CACHE_SIZE. -/
def cacheMessage (cache : CacheState) (msg : List Char) (now : Nat) : CacheState :=
  { entries := cache.entries.set cache.cacheIndex ⟨msg.take 63, now⟩
    cacheIndex := (cache.cacheIndex + 1) % CACHE_SIZE }

/-- isValidMessage (Intermediate_Nod.ino lines 166–171, identical in
Transmitter.ino relay variant lines 532–537): `strncmp(msg, "FIRE", 4) == 0`
or `strncmp(msg, "EARTHQUAKE", 10) == 0`.  For NUL-free strings,
`strncmp(a, b, n) == 0` is exactly `a.take n = b.take n`, and with `b` the
literal of length `n` this is `a.take n = b`. -/
def isValidMessage (msg : List Char) : Bool :=
  if msg.take 4 = "FIRE".data then true
  else if msg.take 10 = "EARTHQUAKE".data then true
  else false

/-- The packet-read loop of the relay (Intermediate_Nod.ino lines 245–253,
Transmitter.ino lines 573–581): bytes are copied while `idx < sizeof(msg)-1`
with a 64-byte buffer, so exactly the first 63 bytes of the inbound packet
are kept. -/
def readPacket (incoming : List Char) : List Char :=
  incoming.take 63

/-- Alert kinds of the receiver (part_000 line 43: enum AlertType). -/
inductive AlertType where
  | NONE
  | FIRE
  | QUAKE
deriving DecidableEq

/-- The kind-dispatch of the receiver's parseMessage (part_000 lines
164–166): `strncmp(msg, "FIRE", 4)`, else `strncmp(msg, "QUAKE", 5)`,
else the kind stays NONE. -/
def parseKind (msg : List Char) : AlertType :=
  if msg.take 4 = "FIRE".data then .FIRE
  else if msg.take 5 = "QUAKE".data then .QUAKE
  else .NONE

/-- The transports available to the hybrid relay. -/
inductive Transport where
  | SHORT_RANGE
  | LONG_RANGE
deriving DecidableEq

/-- DISTANCE_THRESHOLD_METERS from Intermediate_Nod.ino line 45. -/
def DISTANCE_THRESHOLD_METERS : ℚ := 50

/-- The transport decision of forwardMessage (Intermediate_Nod.ino line
203): ESP-NOW when `dist < DISTANCE_THRESHOLD_METERS`, LoRa otherwise. -/
def selectTransport (dist threshold : ℚ) : Transport :=
  if dist < threshold then .SHORT_RANGE else .LONG_RANGE

/-- Forward-path statistics of the relay (Intermediate_Nod.ino lines 50–53). -/
structure RelayStats where
  messagesReceived : Nat
  messagesForwardedLoRa : Nat
  messagesForwardedEspNow : Nat
  messagesDuplicate : Nat
deriving DecidableEq

/-- What one call of the hybrid forwardMessage did: the transport chosen,
the ordered list of payloads handed to that transport's send primitive, and
whether the send reported success. -/
structure ForwardOutcome where
  transport : Transport
  sends : List (List Char)
  delivered : Bool
deriving DecidableEq

/-- forwardMessage (Intermediate_Nod.ino lines 188–229), distance-gated
part: given the computed distance and the transport's send result, choose
ESP-NOW (short range; the payload passes through a 64-byte `strncpy`
buffer) or LoRa (long range; the payload is printed as-is), perform exactly
the one send the code performs, and increment the matching forwarded
counter only when the send succeeds; a failure is logged and nothing else
happens. -/
def forwardMessage (msg : List Char) (dist : ℚ) (sendOk : Bool)
    (st : RelayStats) : RelayStats × ForwardOutcome :=
  if dist < DISTANCE_THRESHOLD_METERS then
    ((if sendOk then
        { st with messagesForwardedEspNow := st.messagesForwardedEspNow + 1 }
      else st),
     ⟨.SHORT_RANGE, [msg.take 63], sendOk⟩)
  else
    ((if sendOk then
        { st with messagesForwardedLoRa := st.messagesForwardedLoRa + 1 }
      else st),
     ⟨.LONG_RANGE, [msg], sendOk⟩)

/-- forwardMessage of the plain relay variant (Transmitter.ino lines
539–557): one jitter delay, then a single LoRa send; `messagesForwarded`
is incremented only when `LoRa.endPacket()` succeeds.  Returns the new
counter and the list of payloads handed to the radio. -/
def forwardMessageRelay (msg : List Char) (sendOk : Bool)
    (messagesForwarded : Nat) : Nat × List (List Char) :=
  ((if sendOk then messagesForwarded + 1 else messagesForwarded), [msg])

/-- Outcome of the relay loop body for one inbound packet. -/
inductive RelayOutcome where
  | droppedInvalid
  | droppedDuplicate
  | forwarding (msg : List Char) (cacheAtSend : CacheState)
deriving DecidableEq

/-- The per-packet decision flow of the relay loop (Intermediate_Nod.ino
lines 245–287, Transmitter.ino lines 573–615): read at most 63 bytes,
drop invalid, drop duplicates (bumping the duplicate counter), otherwise
record into the cache and then forward; the `forwarding` outcome carries the
cache state already in effect when transmission begins. -/
def relayReceive (cache : CacheState) (dupCount : Nat) (incoming : List Char)
    (now : Nat) : CacheState × Nat × RelayOutcome :=
  let msg := readPacket incoming
  if ¬ isValidMessage msg then (cache, dupCount, .droppedInvalid)
  else if isDuplicate cache msg now then (cache, dupCount + 1, .droppedDuplicate)
  else (cacheMessage cache msg now, dupCount, .forwarding msg (cacheMessage cache msg now))

/-- FLAME_SAMPLES_NEEDED from Transmitter.ino line 22. -/
def FLAME_SAMPLES_NEEDED : Nat := 3

/-- FIRE_MIN_INTERVAL (ms) from Transmitter.ino line 23. -/
def FIRE_MIN_INTERVAL : Nat := 5000

/-- State of the fire debouncer (Transmitter.ino lines 41, 136): the static
leaky counter `fireCount` and `lastFireAlert`. -/
structure FireState where
  fireCount : Nat
  lastFireAlert : Nat
deriving DecidableEq

/-- The counter update of the fire debouncer (Transmitter.ino lines
137–139): `if (flameDetected) fireCount++; else if (fireCount > 0)
fireCount--;` which on `Nat` is truncated subtraction. -/
def fireCountStep (c : Nat) (flameDetected : Bool) : Nat :=
  if flameDetected then c + 1 else c - 1

/-- One tick of the fire-detection block (Transmitter.ino lines 135–145):
update the counter, then emit a FIRE alert (returning `true`) when the
counter has reached FLAME_SAMPLES_NEEDED and more than FIRE_MIN_INTERVAL ms
have passed since the last alert; emitting resets the counter to 0 and
stamps `lastFireAlert = now`. -/
def fireTick (s : FireState) (flameDetected : Bool) (now : Nat) : FireState × Bool :=
  let c := fireCountStep s.fireCount flameDetected
  if c ≥ FLAME_SAMPLES_NEEDED ∧ usub32 now s.lastFireAlert > FIRE_MIN_INTERVAL then
    (⟨0, now⟩, true)
  else
    (⟨c, s.lastFireAlert⟩, false)

/-- The specification's wording of the counter: the running sum of +1 on
detection and -1 on non-detection, clipped to stay nonnegative at each
step, carried in ℤ.  Written from the spec's words for comparison with
`fireCountStep`. -/
def clippedVoteSum (flames : List Bool) : ℤ :=
  flames.foldl (fun a f => max 0 (a + if f then 1 else -1)) 0

/-- ALPHA of the quake low-pass filter (Transmitter.ino line 34), 0.5. -/
def ALPHA : ℚ := 1 / 2

/-- QUAKE_THRESHOLD in g (Transmitter.ino line 35), 0.12. -/
def QUAKE_THRESHOLD : ℚ := 12 / 100

/-- WINDOW_SIZE of the quake vote window (Transmitter.ino line 36). -/
def WINDOW_SIZE : Nat := 10

/-- State of the quake detector (Transmitter.ino lines 33–42):
`filteredAccel`, the circular vote window, its write index, and
`lastQuakeAlert`. -/
structure QuakeState where
  filteredAccel : ℚ
  quakeWindow : List Nat
  windowIndex : Nat
  lastQuakeAlert : Nat
deriving DecidableEq

/-- One tick of the quake-detection block (Transmitter.ino lines 148–166):
filter the raw magnitude (`ALPHA * raw + (1 - ALPHA) * prev`), write the
vote `filtered > QUAKE_THRESHOLD` into the circular window, advance the
write index, sum the window, and when the sum is at least 4 and more than
5000 ms have passed since the last quake alert, emit the alert carrying the
current filtered value and stamp `lastQuakeAlert = now`.  The window is
kept as written in either case. -/
def quakeStep (s : QuakeState) (rawAccel : ℚ) (now : Nat) : QuakeState × Option ℚ :=
  let filtered := ALPHA * rawAccel + (1 - ALPHA) * s.filteredAccel
  let window := s.quakeWindow.set s.windowIndex (if filtered > QUAKE_THRESHOLD then 1 else 0)
  let idx := (s.windowIndex + 1) % WINDOW_SIZE
  if window.sum ≥ 4 ∧ usub32 now s.lastQuakeAlert > 5000 then
    (⟨filtered, window, idx, now⟩, some filtered)
  else
    (⟨filtered, window, idx, s.lastQuakeAlert⟩, none)

/-- The comma character, written once so that character literals stay out
of the running text. -/
def commaChar : Char := ','

/-- The space character. -/
def spaceChar : Char := ' '

/-- strchr (C library) on NUL-free strings: the suffix of `s` that starts
at the first occurrence of `c`, or none. -/
def strchr (s : List Char) (c : Char) : Option (List Char) :=
  match s with
  | [] => none
  | x :: xs => if x = c then some (x :: xs) else strchr xs c

/-- Digit run of the atof model: consume leading decimal digits into the
accumulator, returning the value and the rest of the string. -/
def natDigitsAux (acc : Nat) : List Char → Nat × List Char
  | [] => (acc, [])
  | c :: rest =>
    if c.isDigit then natDigitsAux (acc * 10 + (c.toNat - 48)) rest
    else (acc, c :: rest)

/-- Fractional-digit run of the atof model. -/
def fracDigitsAux (acc : ℚ) (scale : ℚ) : List Char → ℚ
  | [] => acc
  | c :: rest =>
    if c.isDigit then fracDigitsAux (acc + scale * ((c.toNat : ℚ) - 48)) (scale / 10) rest
    else acc

/-- The decimal point character. -/
def dotChar : Char := '.'

/-- The minus-sign character. -/
def minusChar : Char := '-'

/-- The plus-sign character. -/
def plusChar : Char := '+'

/-- The unsigned tail of the atof model: integer digits, then an optional
point followed by fraction digits. -/
def atofMagnitude (s : List Char) : ℚ :=
  let p := natDigitsAux 0 s
  let fp :=
    match p.2 with
    | [] => (0 : ℚ)
    | c :: r2 => if c = dotChar then fracDigitsAux 0 (1 / 10) r2 else 0
  (p.1 : ℚ) + fp

/-- Model of the C standard library atof, exact over ℚ, for the decimal
forms this system puts on the wire: skip spaces, optional sign, integer
digits, optional point and fraction digits; conversion stops at the first
character that fits none of these (for this wire format, the next comma)
and an input with no leading number yields 0.  The exponent forms of full
atof never occur in this system's payloads and are not modelled. -/
def atof (s : List Char) : ℚ :=
  let s1 := s.dropWhile (fun c => c = spaceChar)
  match s1 with
  | [] => 0
  | c :: r =>
    if c = minusChar then Neg.neg (atofMagnitude r)
    else if c = plusChar then atofMagnitude r
    else atofMagnitude s1

/-- parseMessage of the receiver (part_000 lines 160–177): zero all outputs,
dispatch the kind by prefix, return early when the kind is NONE, then walk
the commas with strchr, converting the field after each comma with atof;
every early return leaves the remaining fields at 0. -/
def parseMessage (msg : List Char) : AlertType × ℚ × ℚ × ℚ :=
  let t := parseKind msg
  if t = .NONE then (t, 0, 0, 0)
  else
    match strchr msg commaChar with
    | none => (t, 0, 0, 0)
    | some p =>
      let latStr := p.tail
      let lat := atof latStr
      match strchr latStr commaChar with
      | none => (t, lat, 0, 0)
      | some q =>
        let lngStr := q.tail
        let lng := atof lngStr
        match strchr lngStr commaChar with
        | none => (t, lat, lng, 0)
        | some r => (t, lat, lng, atof r.tail)

/-- The C library atan2 on ℝ: arctangent of `y/x` moved to the quadrant of
`(x, y)`, with atan2 of (0, 0) taken as 0 as glibc does. -/
noncomputable def atan2 (y x : ℝ) : ℝ :=
  if 0 < x then Real.arctan (y / x)
  else if x < 0 then
    (if 0 ≤ y then Real.arctan (y / x) + Real.pi else Real.arctan (y / x) - Real.pi)
  else if 0 < y then Real.pi / 2
  else if y < 0 then -(Real.pi / 2)
  else 0

/-- calculateDistance (Intermediate_Nod.ino lines 173–186): the haversine
great-circle distance with Earth radius 6,371,000 m, carried over ℝ. -/
noncomputable def calculateDistance (lat1 lon1 lat2 lon2 : ℝ) : ℝ :=
  let R : ℝ := 6371000
  let phi1 := lat1 * Real.pi / 180
  let phi2 := lat2 * Real.pi / 180
  let deltaPhi := (lat2 - lat1) * Real.pi / 180
  let deltaLambda := (lon2 - lon1) * Real.pi / 180
  let a := Real.sin (deltaPhi / 2) * Real.sin (deltaPhi / 2) +
    Real.cos phi1 * Real.cos phi2 *
    (Real.sin (deltaLambda / 2) * Real.sin (deltaLambda / 2))
  let c := 2 * atan2 (Real.sqrt a) (Real.sqrt (1 - a))
  R * c

/-- Sequential recording: record() applied to each (message, timestamp)
pair in order, the relay's behavior over a run of distinct forwards. -/
def recordAll (cache : CacheState) (msgs : List (List Char × Nat)) : CacheState :=
  msgs.foldl (fun c p => cacheMessage c p.1 p.2) cache

/-- Unfolding recordAll one step. -/
lemma recordAll_cons (cache : CacheState) (p : List Char × Nat)
    (ps : List (List Char × Nat)) :
    recordAll cache (p :: ps) = recordAll (cacheMessage cache p.1 p.2) ps := rfl

/-- cacheMessage leaves the number of slots unchanged. -/
lemma cacheMessage_length (cache : CacheState) (msg : List Char) (now : Nat) :
    (cacheMessage cache msg now).entries.length = cache.entries.length :=
  List.length_set ..

/-- cacheMessage leaves the ring index inside the cache bounds. -/
lemma cacheMessage_index_lt (cache : CacheState) (msg : List Char) (now : Nat) :
    (cacheMessage cache msg now).cacheIndex < CACHE_SIZE := by
  show (cache.cacheIndex + 1) % CACHE_SIZE < CACHE_SIZE
  exact Nat.mod_lt _ (by decide)

/-- recordAll leaves the number of slots unchanged. -/
lemma recordAll_length (msgs : List (List Char × Nat)) :
    ∀ cache : CacheState, (recordAll cache msgs).entries.length = cache.entries.length := by
  induction msgs with
  | nil => intro cache; rfl
  | cons p ps ih =>
    intro cache
    rw [recordAll_cons, ih, cacheMessage_length]

/-- Positional description of the ring after a run of records: slot j
either holds one of the recorded messages, or lies outside the positions
the run wrote (the indices `(start + k) % CACHE_SIZE` for `k` below the
run length) and is untouched. -/
lemma recordAll_getElem (msgs : List (List Char × Nat)) :
    ∀ (cache : CacheState) (j : Nat),
      cache.entries.length = CACHE_SIZE → cache.cacheIndex < CACHE_SIZE → j < CACHE_SIZE →
      (∃ p ∈ msgs, (recordAll cache msgs).entries[j]? = some ⟨p.1.take 63, p.2⟩) ∨
      ((¬ ∃ k, k < msgs.length ∧ j = (cache.cacheIndex + k) % CACHE_SIZE) ∧
        (recordAll cache msgs).entries[j]? = cache.entries[j]?) := by
  induction msgs with
  | nil =>
    intro cache j _ _ _
    right
    refine ⟨?_, rfl⟩
    rintro ⟨k, hk, _⟩
    exact absurd hk (by simp)
  | cons p ps ih =>
    intro cache j hl hi hj
    have hl2 : (cacheMessage cache p.1 p.2).entries.length = CACHE_SIZE := by
      rw [cacheMessage_length, hl]
    have hi2 := cacheMessage_index_lt cache p.1 p.2
    rcases ih (cacheMessage cache p.1 p.2) j hl2 hi2 hj with ⟨q, hq, hget⟩ | ⟨hnk, hget⟩
    · exact Or.inl ⟨q, List.mem_cons_of_mem _ hq, hget⟩
    · by_cases hj0 : j = cache.cacheIndex
      · subst hj0
        left
        refine ⟨p, List.mem_cons_self _ _, ?_⟩
        rw [recordAll_cons, hget]
        show (cache.entries.set cache.cacheIndex ⟨p.1.take 63, p.2⟩)[cache.cacheIndex]? = _
        rw [List.getElem?_set_self]
        rw [hl]
        exact hi
      · right
        constructor
        · rintro ⟨k, hk, hkj⟩
          rcases k with _ | k2
          · exact hj0 (by simpa [Nat.mod_eq_of_lt hi] using hkj)
          · refine hnk ⟨k2, ?_, ?_⟩
            · simpa using Nat.lt_of_succ_lt_succ hk
            · show j = ((cache.cacheIndex + 1) % CACHE_SIZE + k2) % CACHE_SIZE
              rw [hkj]
              unfold CACHE_SIZE
              omega
        · rw [recordAll_cons, hget]
          show (cache.entries.set cache.cacheIndex ⟨p.1.take 63, p.2⟩)[j]? = cache.entries[j]?
          exact List.getElem?_set_ne (fun hh => hj0 hh.symm)

/-- After exactly CACHE_SIZE records every slot of the ring was
overwritten: each entry comes from the recorded run. -/
lemma recordAll_full (msgs : List (List Char × Nat)) (cache : CacheState)
    (hl : cache.entries.length = CACHE_SIZE) (hi : cache.cacheIndex < CACHE_SIZE)
    (hlen : msgs.length = CACHE_SIZE) :
    ∀ e ∈ (recordAll cache msgs).entries, ∃ p ∈ msgs, e = ⟨p.1.take 63, p.2⟩ := by
  intro e he
  rcases List.mem_iff_getElem?.mp he with ⟨j, hjget⟩
  have hjlt : j < CACHE_SIZE := by
    have h1 : j < (recordAll cache msgs).entries.length :=
      (List.getElem?_eq_some.mp hjget).1
    rwa [recordAll_length, hl] at h1
  rcases recordAll_getElem msgs cache j hl hi hjlt with ⟨p, hp, hget⟩ | ⟨hnk, _⟩
  · rw [hget] at hjget
    injection hjget with h2
    exact ⟨p, hp, h2.symm⟩
  · exfalso
    refine hnk ⟨(j + CACHE_SIZE - cache.cacheIndex) % CACHE_SIZE, ?_, ?_⟩ <;>
      (rw [hlen] at * <;> skip) <;> (unfold CACHE_SIZE at *; omega)

/-- C2: isDuplicate is true exactly when some slot holds a string equal to
the query whose timestamp is within the 5000 ms window of `now`; it is
false once every matching slot's window has elapsed, and false after
capacity-many (10) records none of which cached the query text, since the
ring order overwrote every slot in between. -/
theorem isDuplicate_window_and_capacity :
    ∀ (cache : CacheState) (msg : List Char) (now : Nat) (msgs : List (List Char × Nat)),
      cache.entries.length = CACHE_SIZE →
      cache.cacheIndex < CACHE_SIZE →
      ((isDuplicate cache msg now = true ↔
        ∃ e ∈ cache.entries, e.msg = msg ∧ usub32 now e.timestamp < DEDUPE_WINDOW) ∧
      ((∀ e ∈ cache.entries, e.msg = msg → DEDUPE_WINDOW ≤ usub32 now e.timestamp) →
        isDuplicate cache msg now = false) ∧
      (msgs.length = CACHE_SIZE → (∀ p ∈ msgs, p.1.take 63 ≠ msg) →
        isDuplicate (recordAll cache msgs) msg now = false)) := by
  intro cache msg now msgs hl hi
  have hiff : ∀ c : CacheState, (isDuplicate c msg now = true ↔
      ∃ e ∈ c.entries, e.msg = msg ∧ usub32 now e.timestamp < DEDUPE_WINDOW) := by
    intro c
    simp [isDuplicate, List.any_eq_true]
  refine ⟨hiff cache, ?_, ?_⟩
  · intro hall
    cases hD : isDuplicate cache msg now with
    | false => rfl
    | true =>
      exfalso
      rcases (hiff cache).mp hD with ⟨e, he, hmsg, hfresh⟩
      exact absurd hfresh (not_lt.mpr (hall e he hmsg))
  · intro hlen hne
    cases hD : isDuplicate (recordAll cache msgs) msg now with
    | false => rfl
    | true =>
      exfalso
      rcases (hiff _).mp hD with ⟨e, he, hmsg, _⟩
      rcases recordAll_full msgs cache hl hi hlen e he with ⟨p, hp, hpe⟩
      exact hne p hp (by rw [← hmsg, hpe])

/-- Witness for C2 at a concrete empty ten-slot cache. -/
theorem isDuplicate_window_and_capacity_witness :
    (⟨List.replicate 10 ⟨[], 0⟩, 0⟩ : CacheState).entries.length = CACHE_SIZE ∧
    (⟨List.replicate 10 ⟨[], 0⟩, 0⟩ : CacheState).cacheIndex < CACHE_SIZE ∧
    ((isDuplicate ⟨List.replicate 10 ⟨[], 0⟩, 0⟩ ("FIRE,1".data) 9000 = true ↔
        ∃ e ∈ (⟨List.replicate 10 ⟨[], 0⟩, 0⟩ : CacheState).entries,
          e.msg = ("FIRE,1".data) ∧ usub32 9000 e.timestamp < DEDUPE_WINDOW) ∧
      ((∀ e ∈ (⟨List.replicate 10 ⟨[], 0⟩, 0⟩ : CacheState).entries,
          e.msg = ("FIRE,1".data) → DEDUPE_WINDOW ≤ usub32 9000 e.timestamp) →
        isDuplicate ⟨List.replicate 10 ⟨[], 0⟩, 0⟩ ("FIRE,1".data) 9000 = false) ∧
      (([] : List (List Char × Nat)).length = CACHE_SIZE →
        (∀ p ∈ ([] : List (List Char × Nat)), p.1.take 63 ≠ ("FIRE,1".data)) →
        isDuplicate (recordAll ⟨List.replicate 10 ⟨[], 0⟩, 0⟩ []) ("FIRE,1".data) 9000 = false)) :=
  ⟨by decide, by decide,
    isDuplicate_window_and_capacity ⟨List.replicate 10 ⟨[], 0⟩, 0⟩ ("FIRE,1".data) 9000 []
      (by decide) (by decide)⟩

/-- C1: the relay's validation does NOT accept the "QUAKE" prefix the
transmitter puts on the wire: `isValidMessage` length-check-matches only
"FIRE" and "EARTHQUAKE", so the transmitter's own quake payload (format
"QUAKE,lat,lng,extra", recognized as QUAKE by the receiver's parseMessage)
is classified invalid and dropped by the relay, contradicting the claim
that every payload beginning with "QUAKE" passes validation. -/
theorem quake_payload_fails_relay_validation :
    isValidMessage ("QUAKE,30.768885,76.575210,0.50".data) = false ∧
    parseKind ("QUAKE,30.768885,76.575210,0.50".data) = AlertType.QUAKE ∧
    isValidMessage ("FIRE,30.768885,76.575210,1.00".data) = true ∧
    isValidMessage ("EARTHQUAKE,0.000000,0.000000,0.00".data) = true := by
  refine ⟨?_, ?_, ?_, ?_⟩ <;> decide

/-- C5: the relay forwards via the short-range transport (ESP-NOW) exactly
when the computed distance is strictly below the threshold, and otherwise
(including exact equality) via the long-range transport (LoRa); and the
transport `forwardMessage` actually uses is this selection at the
configured threshold of 50 m. -/
theorem selectTransport_strict_boundary :
    (∀ dist threshold : ℚ,
      (selectTransport dist threshold = Transport.SHORT_RANGE ↔ dist < threshold) ∧
      (selectTransport dist threshold = Transport.LONG_RANGE ↔ ¬ dist < threshold) ∧
      (dist = threshold → selectTransport dist threshold = Transport.LONG_RANGE)) ∧
    (∀ (msg : List Char) (dist : ℚ) (sendOk : Bool) (st : RelayStats),
      (forwardMessage msg dist sendOk st).2.transport =
        selectTransport dist DISTANCE_THRESHOLD_METERS) := by
  constructor
  · intro dist threshold
    by_cases h : dist < threshold
    · refine ⟨by simp [selectTransport, h], by simp [selectTransport, h], ?_⟩
      intro he
      exact absurd h (by simp [he])
    · exact ⟨by simp [selectTransport, h], by simp [selectTransport, h],
        fun _ => by simp [selectTransport, h]⟩
  · intro msg dist sendOk st
    by_cases h : dist < DISTANCE_THRESHOLD_METERS <;>
      simp [forwardMessage, selectTransport, h]

/-- C9: a forward attempt performs exactly one transmission on the chosen
transport; on failure nothing is retried and the counters are left
untouched (the message is lost for this hop), while on success exactly the
chosen transport's forwarded counter is incremented.  Both the hybrid
relay's forwardMessage and the plain relay variant are covered. -/
theorem forward_failure_no_retry :
    ∀ (msg : List Char) (dist : ℚ) (sendOk : Bool) (st : RelayStats) (n : Nat),
      ((forwardMessage msg dist sendOk st).2.sends.length = 1) ∧
      (sendOk = false → (forwardMessage msg dist sendOk st).1 = st) ∧
      (sendOk = true → dist < DISTANCE_THRESHOLD_METERS →
        (forwardMessage msg dist sendOk st).1 =
          { st with messagesForwardedEspNow := st.messagesForwardedEspNow + 1 }) ∧
      (sendOk = true → ¬ dist < DISTANCE_THRESHOLD_METERS →
        (forwardMessage msg dist sendOk st).1 =
          { st with messagesForwardedLoRa := st.messagesForwardedLoRa + 1 }) ∧
      ((forwardMessageRelay msg sendOk n).2.length = 1) ∧
      (sendOk = false → (forwardMessageRelay msg sendOk n).1 = n) ∧
      (sendOk = true → (forwardMessageRelay msg sendOk n).1 = n + 1) := by
  intro msg dist sendOk st n
  by_cases h : dist < DISTANCE_THRESHOLD_METERS <;>
    cases sendOk <;>
      simp [forwardMessage, forwardMessageRelay, h]

/-- C3: a tick of the quake detector emits an alert exactly when the
just-updated 10-slot vote window sums to at least 4 and strictly more than
5000 ms have passed since the previous quake alert; the alert carries the
current filtered magnitude, firing stamps `lastQuakeAlert = now` (and only
firing does), and the window is left exactly as written — never cleared —
in both cases, so sustained shaking can refire each cooldown period. -/
theorem quakeStep_alert_spec :
    ∀ (s : QuakeState) (rawAccel : ℚ) (now : Nat),
      ((quakeStep s rawAccel now).2 ≠ none ↔
        ((s.quakeWindow.set s.windowIndex
            (if ALPHA * rawAccel + (1 - ALPHA) * s.filteredAccel > QUAKE_THRESHOLD
             then 1 else 0)).sum ≥ 4 ∧
         usub32 now s.lastQuakeAlert > 5000)) ∧
      ((quakeStep s rawAccel now).2 ≠ none →
        (quakeStep s rawAccel now).2 =
          some (ALPHA * rawAccel + (1 - ALPHA) * s.filteredAccel) ∧
        (quakeStep s rawAccel now).1.lastQuakeAlert = now) ∧
      ((quakeStep s rawAccel now).2 = none →
        (quakeStep s rawAccel now).1.lastQuakeAlert = s.lastQuakeAlert) ∧
      ((quakeStep s rawAccel now).1.quakeWindow =
        s.quakeWindow.set s.windowIndex
          (if ALPHA * rawAccel + (1 - ALPHA) * s.filteredAccel > QUAKE_THRESHOLD
           then 1 else 0)) ∧
      ((quakeStep s rawAccel now).1.filteredAccel =
        ALPHA * rawAccel + (1 - ALPHA) * s.filteredAccel) := by
  intro s rawAccel now
  by_cases h :
      ((s.quakeWindow.set s.windowIndex
          (if ALPHA * rawAccel + (1 - ALPHA) * s.filteredAccel > QUAKE_THRESHOLD
           then 1 else 0)).sum ≥ 4 ∧
        usub32 now s.lastQuakeAlert > 5000) <;>
    simp [quakeStep, h]

/-- Helper for C4: the fire counter of the code, folded over a flame
sample sequence, agrees (as an integer) with the specification's clipped
running vote sum from any nonnegative start. -/
lemma foldl_fireCountStep_eq_clipped (flames : List Bool) :
    ∀ c : Nat,
      ((flames.foldl fireCountStep c : Nat) : ℤ) =
        flames.foldl (fun a f => max 0 (a + if f then 1 else -1)) (c : ℤ) := by
  induction flames with
  | nil => intro c; rfl
  | cons f fs ih =>
    intro c
    rw [List.foldl_cons, List.foldl_cons, ih]
    congr 1
    cases f <;> simp only [fireCountStep, if_true, if_false] <;>
      rw [max_def] <;> split <;> omega

/-- C4: the fire debounce counter after each tick equals the running vote
sum (+1 on detection, -1 otherwise) clipped at 0 at every step; a FIRE alert is emitted on a
tick exactly when the updated counter has reached 3 (FLAME_SAMPLES_NEEDED)
and strictly more than 5000 ms have elapsed since the previous FIRE alert,
and emitting resets the counter to 0 and stamps `lastFireAlert = now`. -/
theorem fireTick_leaky_counter_spec :
    (∀ flames : List Bool,
      ((flames.foldl fireCountStep 0 : Nat) : ℤ) = clippedVoteSum flames) ∧
    (∀ (s : FireState) (flameDetected : Bool) (now : Nat),
      ((fireTick s flameDetected now).2 = true ↔
        (fireCountStep s.fireCount flameDetected ≥ FLAME_SAMPLES_NEEDED ∧
          usub32 now s.lastFireAlert > FIRE_MIN_INTERVAL)) ∧
      ((fireTick s flameDetected now).2 = true →
        (fireTick s flameDetected now).1 = ⟨0, now⟩) ∧
      ((fireTick s flameDetected now).2 = false →
        (fireTick s flameDetected now).1 =
          ⟨fireCountStep s.fireCount flameDetected, s.lastFireAlert⟩)) := by
  constructor
  · intro flames
    exact foldl_fireCountStep_eq_clipped flames 0
  · intro s flameDetected now
    by_cases h :
        (fireCountStep s.fireCount flameDetected ≥ FLAME_SAMPLES_NEEDED ∧
          usub32 now s.lastFireAlert > FIRE_MIN_INTERVAL) <;>
      simp [fireTick, h]

/-- Helper for C6: the haversine's inner expression is symmetric under
swapping the two coordinate pairs. -/
lemma haversine_term_symm (u v p q : ℝ) :
    Real.sin ((u - v) * Real.pi / 180 / 2) * Real.sin ((u - v) * Real.pi / 180 / 2) +
      Real.cos (v * Real.pi / 180) * Real.cos (u * Real.pi / 180) *
      (Real.sin ((p - q) * Real.pi / 180 / 2) * Real.sin ((p - q) * Real.pi / 180 / 2)) =
    Real.sin ((v - u) * Real.pi / 180 / 2) * Real.sin ((v - u) * Real.pi / 180 / 2) +
      Real.cos (u * Real.pi / 180) * Real.cos (v * Real.pi / 180) *
      (Real.sin ((q - p) * Real.pi / 180 / 2) * Real.sin ((q - p) * Real.pi / 180 / 2)) := by
  rw [show (v - u) * Real.pi / 180 / 2 = -((u - v) * Real.pi / 180 / 2) by ring,
    show (q - p) * Real.pi / 180 / 2 = -((p - q) * Real.pi / 180 / 2) by ring,
    Real.sin_neg, Real.sin_neg]
  ring

/-- C6: the haversine distance function of the relay is symmetric in its
two coordinate pairs, and a point is at distance zero from itself. -/
theorem calculateDistance_symm_self :
    (∀ lat1 lon1 lat2 lon2 : ℝ,
      calculateDistance lat1 lon1 lat2 lon2 = calculateDistance lat2 lon2 lat1 lon1) ∧
    (∀ lat lon : ℝ, calculateDistance lat lon lat lon = 0) := by
  constructor
  · intro lat1 lon1 lat2 lon2
    simp only [calculateDistance]
    rw [haversine_term_symm lat2 lat1 lon2 lon1]
  · intro lat lon
    simp [calculateDistance, atan2]

/-- Helper for C7: strchr finds nothing exactly when the character does
not occur. -/
lemma strchr_eq_none (s : List Char) (c : Char) : strchr s c = none ↔ c ∉ s := by
  induction s with
  | nil => simp [strchr]
  | cons x xs ih =>
    by_cases hx : x = c
    · subst hx
      simp [strchr]
    · simp only [strchr, if_neg hx, List.mem_cons, ih]
      constructor
      · rintro hn (hc | hc)
        · exact hx hc.symm
        · exact hn hc
      · intro hn hc
        exact hn (Or.inr hc)

/-- Helper for C7: a successful strchr accounts for exactly one occurrence
plus those in the returned tail. -/
lemma strchr_count (s : List Char) (c : Char) :
    ∀ p, strchr s c = some p → s.count c = p.tail.count c + 1 := by
  induction s with
  | nil =>
    intro p h
    simp [strchr] at h
  | cons x xs ih =>
    intro p h
    by_cases hx : x = c
    · subst hx
      simp [strchr] at h
      subst h
      simp [List.count_cons_self]
    · simp only [strchr, if_neg hx] at h
      rw [List.count_cons_of_ne (fun hh => hx hh.symm)]
      exact ih p h

/-- C7: for every input whose kind is recognized, decoding is total and
positional: the returned kind is the parsed kind, and each missing comma
leaves every unfilled trailing numeric field at 0, so the decoder always
returns a well-typed quadruple. -/
theorem parseMessage_never_fails :
    ∀ msg : List Char, parseKind msg ≠ AlertType.NONE →
      ((parseMessage msg).1 = parseKind msg) ∧
      (msg.count commaChar = 0 → parseMessage msg = (parseKind msg, 0, 0, 0)) ∧
      (msg.count commaChar = 1 →
        (parseMessage msg).2.2.1 = 0 ∧ (parseMessage msg).2.2.2 = 0) ∧
      (msg.count commaChar = 2 → (parseMessage msg).2.2.2 = 0) := by
  intro msg h
  simp only [parseMessage, if_neg h]
  rcases h1 : strchr msg commaChar with _ | p <;> simp only [h1]
  · refine ⟨?_, ?_, ?_, ?_⟩ <;>
      first
        | trivial
        | (intro h0; first | trivial | exact ⟨trivial, trivial⟩ | (exfalso; omega))
  · have hc1 := strchr_count msg commaChar p h1
    rcases h2 : strchr p.tail commaChar with _ | q <;> simp only [h2]
    · refine ⟨?_, ?_, ?_, ?_⟩ <;>
        first
          | trivial
          | (intro h0; first | trivial | exact ⟨trivial, trivial⟩ | (exfalso; omega))
    · have hc2 := strchr_count p.tail commaChar q h2
      rcases h3 : strchr q.tail commaChar with _ | r <;> simp only [h3]
      · refine ⟨?_, ?_, ?_, ?_⟩ <;>
          first
            | trivial
            | (intro h0; first | trivial | exact ⟨trivial, trivial⟩ | (exfalso; omega))
      · have hc3 := strchr_count q.tail commaChar r h3
        refine ⟨?_, ?_, ?_, ?_⟩ <;>
          first
            | trivial
            | (intro h0; first | trivial | exact ⟨trivial, trivial⟩ | (exfalso; omega))

/-- Witness for C7 at the concrete payload "QUAKE,30.25": the kind is
recognized and the theorem's conclusions hold there. -/
theorem parseMessage_never_fails_witness :
    parseKind ("QUAKE,30.25".data) ≠ AlertType.NONE ∧
    (((parseMessage ("QUAKE,30.25".data)).1 = parseKind ("QUAKE,30.25".data)) ∧
      (("QUAKE,30.25".data).count commaChar = 0 →
        parseMessage ("QUAKE,30.25".data) = (parseKind ("QUAKE,30.25".data), 0, 0, 0)) ∧
      (("QUAKE,30.25".data).count commaChar = 1 →
        (parseMessage ("QUAKE,30.25".data)).2.2.1 = 0 ∧
        (parseMessage ("QUAKE,30.25".data)).2.2.2 = 0) ∧
      (("QUAKE,30.25".data).count commaChar = 2 →
        (parseMessage ("QUAKE,30.25".data)).2.2.2 = 0)) :=
  ⟨by decide, parseMessage_never_fails ("QUAKE,30.25".data) (by decide)⟩

/-- C8: a valid, non-duplicate message is recorded into the cache before
its forward begins: the relay's forwarding outcome carries the
already-updated cache, and against that cache the same text is recognized
as a duplicate at any instant within the dedupe window of the record — in
particular throughout the 50–150 ms pre-send jitter delay. -/
theorem record_before_forward :
    ∀ (cache : CacheState) (dupCount : Nat) (incoming : List Char) (now t : Nat),
      isValidMessage (readPacket incoming) = true →
      isDuplicate cache (readPacket incoming) now = false →
      cache.cacheIndex < cache.entries.length →
      ((relayReceive cache dupCount incoming now).2.2 =
        RelayOutcome.forwarding (readPacket incoming)
          (cacheMessage cache (readPacket incoming) now)) ∧
      (usub32 t now < DEDUPE_WINDOW →
        isDuplicate (cacheMessage cache (readPacket incoming) now)
          (readPacket incoming) t = true) := by
  intro cache dupCount incoming now t hv hd hidx
  constructor
  · simp [relayReceive, hv, hd]
  · intro ht
    refine List.any_eq_true.mpr
      ⟨⟨(readPacket incoming).take 63, now⟩, List.mem_set _ _ hidx _, ?_⟩
    simp [readPacket, List.take_take, ht]

/-- Witness for C8 at a concrete empty cache and the payload "FIRE,1". -/
theorem record_before_forward_witness :
    isValidMessage (readPacket ("FIRE,1".data)) = true ∧
    isDuplicate ⟨List.replicate 10 ⟨[], 0⟩, 0⟩ (readPacket ("FIRE,1".data)) 6000 = false ∧
    (⟨List.replicate 10 ⟨[], 0⟩, 0⟩ : CacheState).cacheIndex <
      (⟨List.replicate 10 ⟨[], 0⟩, 0⟩ : CacheState).entries.length ∧
    (((relayReceive ⟨List.replicate 10 ⟨[], 0⟩, 0⟩ 0 ("FIRE,1".data) 6000).2.2 =
        RelayOutcome.forwarding (readPacket ("FIRE,1".data))
          (cacheMessage ⟨List.replicate 10 ⟨[], 0⟩, 0⟩ (readPacket ("FIRE,1".data)) 6000)) ∧
      (usub32 6100 6000 < DEDUPE_WINDOW →
        isDuplicate (cacheMessage ⟨List.replicate 10 ⟨[], 0⟩, 0⟩ (readPacket ("FIRE,1".data)) 6000)
          (readPacket ("FIRE,1".data)) 6100 = true)) :=
  ⟨by decide, by decide, by decide,
    record_before_forward ⟨List.replicate 10 ⟨[], 0⟩, 0⟩ 0 ("FIRE,1".data) 6000 6100
      (by decide) (by decide) (by decide)⟩

/-- C10: recording keeps every cache entry at most 63 characters long, the
packet reader keeps at most the first 63 bytes, and two inbound packets
that agree on their first 63 bytes are indistinguishable to the read,
the duplicate check and the record. -/
theorem cache_prefix63_invariant :
    ∀ (cache : CacheState) (msg : List Char) (now : Nat) (p1 p2 : List Char),
      (∀ e ∈ cache.entries, e.msg.length ≤ 63) →
      ((∀ e ∈ (cacheMessage cache msg now).entries, e.msg.length ≤ 63) ∧
       (readPacket p1).length ≤ 63 ∧
       (p1.take 63 = p2.take 63 →
         readPacket p1 = readPacket p2 ∧
         isDuplicate cache (readPacket p1) now = isDuplicate cache (readPacket p2) now ∧
         cacheMessage cache (readPacket p1) now = cacheMessage cache (readPacket p2) now)) := by
  intro cache msg now p1 p2 hb
  refine ⟨?_, ?_, ?_⟩
  · intro e he
    rcases List.mem_or_eq_of_mem_set he with h | h
    · exact hb e h
    · rw [h]
      simp [List.length_take]
  · show (p1.take 63).length ≤ 63
    simp [List.length_take]
  · intro hp
    have hr : readPacket p1 = readPacket p2 := hp
    exact ⟨hr, by rw [hr], by rw [hr]⟩

/-- Witness for C10 at a concrete cache and packets agreeing on their first
63 bytes. -/
theorem cache_prefix63_invariant_witness :
    (∀ e ∈ (⟨List.replicate 10 ⟨[], 0⟩, 0⟩ : CacheState).entries, e.msg.length ≤ 63) ∧
    ((∀ e ∈ (cacheMessage ⟨List.replicate 10 ⟨[], 0⟩, 0⟩ ("FIRE,1".data) 0).entries,
        e.msg.length ≤ 63) ∧
     (readPacket ("QUAKE,1".data)).length ≤ 63 ∧
     (("QUAKE,1".data).take 63 = ("QUAKE,1".data).take 63 →
       readPacket ("QUAKE,1".data) = readPacket ("QUAKE,1".data) ∧
       isDuplicate ⟨List.replicate 10 ⟨[], 0⟩, 0⟩ (readPacket ("QUAKE,1".data)) 0 =
         isDuplicate ⟨List.replicate 10 ⟨[], 0⟩, 0⟩ (readPacket ("QUAKE,1".data)) 0 ∧
       cacheMessage ⟨List.replicate 10 ⟨[], 0⟩, 0⟩ (readPacket ("QUAKE,1".data)) 0 =
         cacheMessage ⟨List.replicate 10 ⟨[], 0⟩, 0⟩ (readPacket ("QUAKE,1".data)) 0)) :=
  ⟨by decide,
    cache_prefix63_invariant ⟨List.replicate 10 ⟨[], 0⟩, 0⟩ ("FIRE,1".data) 0
      ("QUAKE,1".data) ("QUAKE,1".data) (by decide)⟩

end LoRaSystem
